import Mathlib

/-!
Verification of the Plinko physics/scoring core.

The development shallowly embeds the core modules of the repository:

* `src/core/commands.py` — command parsing, affordability, execution,
  screen-message pruning.  Python strings are modelled as `List Char`
  (ASCII fragment of `str.lower` / `str.strip` / the `msg` regex),
  wall-clock `time.time()` is passed explicitly as a `now : ℚ` argument,
  and the ledger (a Python `dict` preserving insertion order) is an
  association list of `UserScore` records.
* `src/core/game_logic.py` — board configuration, peg construction,
  scoring, ball spawning, reset, and per-peg collision resolution.
  Exact arithmetic (`ℚ`) replaces Python floats for the scoring and
  ledger operations; the collision geometry, which needs square roots,
  is embedded over `ℝ`.

Rendering-only data (pygame surfaces, fonts, particle state) is outside
the embedded core and is omitted from the records.
-/

namespace Plinko

/-- `CommandType` enum of `src/core/commands.py` (only `MSG = "msg"`). -/
inductive CommandType where
  | MSG
deriving DecidableEq, Repr

/-- String value of a command type, mirroring `CommandType.value`. -/
def CommandType.value : CommandType → List Char
  | .MSG => ['m', 's', 'g']

/-- `ScreenMessage` dataclass of `src/core/commands.py`.  The pygame
`avatar_surface` field is rendering-only and omitted; `timestamp` is the
`time.time()` value at creation, modelled as an explicit rational. -/
structure ScreenMessage where
  username : String
  message : List Char
  timestamp : ℚ
  duration : ℚ
  x : ℚ
  y : ℚ
  alpha : ℤ
deriving DecidableEq, Repr

/-- `UserScore` dataclass of `src/core/game_logic.py` (the pygame
`avatar_surface` field is rendering-only and omitted). -/
structure UserScore where
  username : String
  score : ℤ
  avatar_url : Option String
deriving DecidableEq, Repr

/-- `app_config.COMMAND_COSTS.get(kind, 0)` with the default table
`{'msg': 50}` from `src/core/config.py`. -/
def COMMAND_COSTS (kind : List Char) : ℤ :=
  if kind = ['m', 's', 'g'] then 50 else 0

/-- Cost charged for a command: `COMMAND_COSTS.get(command_type.value, 0)`. -/
def commandCost (kind : CommandType) : ℤ :=
  COMMAND_COSTS kind.value

/-- Membership / lookup in the ledger, mirroring `username in user_scores`
and `user_scores[username]` on the insertion-ordered Python dict. -/
def lookupUser (username : String) (scores : List UserScore) : Option UserScore :=
  scores.find? (fun u => u.username = username)

/-- `CommandProcessor.can_afford_command`: false when the user is unknown,
otherwise `user_scores[username].score >= cost`. -/
def can_afford_command (username : String) (kind : CommandType)
    (scores : List UserScore) : Bool :=
  match lookupUser username scores with
  | none => false
  | some u => decide (commandCost kind ≤ u.score)

/-- `CommandProcessor._execute_msg_command`: appends one `ScreenMessage`
with display duration 6 seconds to the screen-message queue. -/
def execute_msg_command (username : String) (parameter : List Char) (now : ℚ)
    (msgs : List ScreenMessage) : List ScreenMessage :=
  msgs ++ [{ username := username, message := parameter, timestamp := now,
             duration := 6, x := 0, y := 0, alpha := 255 }]

/-- `CommandProcessor.execute_command`: re-checks affordability, debits the
cost from the user's ledger entry, performs the kind-specific effect and
returns `true`; returns `false` with no state change when the user cannot
afford the command.  Result: `(returned bool, ledger, screen messages)`. -/
def execute_command (username : String) (kind : CommandType) (parameter : List Char)
    (scores : List UserScore) (now : ℚ) (msgs : List ScreenMessage) :
    Bool × List UserScore × List ScreenMessage :=
  if can_afford_command username kind scores then
    let cost := commandCost kind
    let scores2 := scores.map (fun u =>
      if u.username = username then { u with score := u.score - cost } else u)
    match kind with
    | .MSG => (true, scores2, execute_msg_command username parameter now msgs)
  else
    (false, scores, msgs)

/-- `CommandProcessor.update(dt)`: keeps exactly the screen messages whose
elapsed time is still below their duration.  The Python body reads the
wall clock (`time.time()`), passed here as `now`; the `dt` argument is
accepted and unused, exactly as in the source. -/
def processorUpdate (now : ℚ) (dt : ℚ) (msgs : List ScreenMessage) :
    List ScreenMessage :=
  msgs.filter (fun m => now - m.timestamp < m.duration)

/-- `GameConfig` dataclass of `src/core/game_logic.py` (numeric fields as
exact rationals). -/
structure GameConfig where
  width : ℚ
  height : ℚ
  peg_radius : ℚ
  ball_radius : ℚ
  gravity : ℚ
  damping : ℚ
  rows : ℕ
  top_pegs : ℕ
  bottom_margin : ℚ
  top_margin : ℚ
  cols : ℕ
  slot_count : ℕ
  slot_scores : List ℤ
deriving DecidableEq, Repr

/-- Fallible construction of a `GameConfig`: `GameConfig.__post_init__`
raises `ValueError` when `len(slot_scores) != slot_count`, modelled as
`Except.error`. -/
def mkGameConfig (width height peg_radius ball_radius gravity damping : ℚ)
    (rows top_pegs : ℕ) (bottom_margin top_margin : ℚ) (cols slot_count : ℕ)
    (slot_scores : List ℤ) : Except String GameConfig :=
  if slot_scores.length ≠ slot_count then
    .error ("slot_scores length must match slot_count")
  else
    .ok { width := width, height := height, peg_radius := peg_radius,
          ball_radius := ball_radius, gravity := gravity, damping := damping,
          rows := rows, top_pegs := top_pegs, bottom_margin := bottom_margin,
          top_margin := top_margin, cols := cols, slot_count := slot_count,
          slot_scores := slot_scores }

/-- The default `GameConfig` values from the dataclass field defaults. -/
def defaultConfig : GameConfig :=
  { width := 600, height := 800, peg_radius := 6, ball_radius := 20,
    gravity := 2000, damping := 55 / 100, rows := 8, top_pegs := 3,
    bottom_margin := 10, top_margin := 200, cols := 9, slot_count := 9,
    slot_scores := [100, 50, 25, 10, 5, 10, 25, 50, 100] }

/-- `Ball` dataclass (the pygame `avatar_surface` field is rendering-only
and omitted).  The coordinate field type is a parameter so that the exact
ledger/scoring development can use `ℚ` while collision geometry uses `ℝ`. -/
structure Ball (α : Type) where
  x : α
  y : α
  vx : α
  vy : α
  radius : α
  username : String
  active : Bool := true
  rotation : α
deriving DecidableEq, Repr

/-- `Peg` dataclass. -/
structure Peg (α : Type) where
  x : α
  y : α
  radius : α
  hit_timer : α
deriving DecidableEq, Repr

/-- `GameState._create_pegs`: the triangular peg lattice, in insertion
order (row-major, left to right). -/
def createPegs (config : GameConfig) : List (Peg ℚ) :=
  let max_pegs : ℚ := (config.top_pegs : ℚ) + ((config.rows : ℚ) - 1)
  let row_height : ℚ :=
    (config.height - config.bottom_margin - config.top_margin) / (config.rows : ℚ)
  let peg_spacing : ℚ := config.width / (max_pegs + 1)
  ((List.range config.rows).map (fun row =>
    let pegs_in_row := config.top_pegs + row
    let start_offset_pegs : ℚ := (max_pegs - (pegs_in_row : ℚ)) / 2
    let y : ℚ := config.top_margin + (row : ℚ) * row_height
    (List.range pegs_in_row).map (fun i =>
      { x := (start_offset_pegs + (i : ℚ) + 1) * peg_spacing, y := y,
        radius := config.peg_radius, hit_timer := 0 }))).flatten

/-- The slot index computed by `GameState._handle_ball_scored`:
`int((ball.x - slot_width) // slot_width)` clamped by
`max(0, min(slot_index, slot_count - 1))`, with
`slot_width = width / (max_pegs + 1)` and `slot_count = max_pegs - 1`
for `max_pegs = top_pegs + rows - 1`. -/
def computeSlotIndex (config : GameConfig) (x : ℚ) : ℤ :=
  let max_pegs : ℤ := (config.top_pegs : ℤ) + (config.rows : ℤ) - 1
  let slot_width : ℚ := config.width / ((max_pegs : ℚ) + 1)
  let slot_count : ℤ := max_pegs - 1
  let slot_index : ℤ := Int.floor ((x - slot_width) / slot_width)
  max 0 (min slot_index (slot_count - 1))

/-- The points awarded by `GameState._handle_ball_scored`:
`slot_scores[slot_index]`, or `slot_scores[-1]` when the clamped index is
at least `len(slot_scores)`.  (On an empty `slot_scores` list the Python
`slot_scores[-1]` would raise `IndexError`; the construction-time length
check ties the length to `slot_count`, and the `getLastD 0` default is
never reached for a nonempty list.) -/
def computePoints (config : GameConfig) (x : ℚ) : ℤ :=
  let slot_index := (computeSlotIndex config x).toNat
  if config.slot_scores.length ≤ slot_index then
    config.slot_scores.getLastD 0
  else
    config.slot_scores.getD slot_index 0

/-- The complete mutable state owned by `GameState` (the screen-message
queue lives inside its `CommandProcessor`; it is inlined here as a field).
Rendering-only avatar caches are omitted. -/
structure GameState where
  balls : List (Ball ℚ)
  pegs : List (Peg ℚ)
  user_scores : List UserScore
  sound_events : List (String × ℚ × ℚ)
  screen_messages : List ScreenMessage
deriving DecidableEq, Repr

/-- `GameState._handle_ball_scored`: credits the computed points to the
ball's owner when (and only when) `ball.username in self.user_scores`,
then appends a `("slot_hit", x, y)` notification. -/
def handle_ball_scored (config : GameConfig) (ball : Ball ℚ) (g : GameState) :
    GameState :=
  let points := computePoints config ball.x
  let scores :=
    if (lookupUser ball.username g.user_scores).isSome then
      g.user_scores.map (fun u =>
        if u.username = ball.username then { u with score := u.score + points } else u)
    else
      g.user_scores
  { g with user_scores := scores,
           sound_events := g.sound_events ++ [("slot_hit", ball.x, ball.y)] }

/-- `GameState.spawn_ball`: registers the user with score 0 when new and
appends a fresh ball at `(width/2, top_margin - 40)`.  The horizontal
velocity is drawn by `random.uniform(-40, 40)` in the source; the sampled
value is passed in explicitly as `vx`. -/
def spawn_ball (config : GameConfig) (vx : ℚ) (username : String)
    (avatar_url : Option String) (g : GameState) : GameState :=
  let scores :=
    if (lookupUser username g.user_scores).isSome then
      g.user_scores
    else
      g.user_scores ++ [{ username := username, score := 0, avatar_url := avatar_url }]
  { g with user_scores := scores,
           balls := g.balls ++
             [{ x := config.width / 2, y := config.top_margin - 40, vx := vx,
                vy := 0, radius := config.ball_radius, username := username,
                active := true, rotation := 0 }] }

/-- `GameState.reset`: clears the balls, zeroes every registered score
(keeping the entries), and clears the notification queue.  Pegs and the
screen-message queue are untouched, as in the source. -/
def reset (g : GameState) : GameState :=
  { g with balls := [],
           user_scores := g.user_scores.map (fun u => { u with score := 0 }),
           sound_events := [] }

/-- The empty coordinator state right after `GameState.__init__`. -/
def initialState (config : GameConfig) : GameState :=
  { balls := [], pegs := createPegs config, user_scores := [],
    sound_events := [], screen_messages := [] }

/-- The ledger-mutating operations reachable through the coordinator's
public surface: ball spawn, slot scoring of a ball, command execution,
and reset. -/
inductive GameEvent where
  | spawn (username : String) (vx : ℚ) (avatar_url : Option String)
  | scoreBall (ball : Ball ℚ)
  | command (username : String) (kind : CommandType) (parameter : List Char) (now : ℚ)
  | doReset
deriving DecidableEq, Repr

/-- One ledger-mutating operation applied to the coordinator state. -/
def step (config : GameConfig) (g : GameState) : GameEvent → GameState
  | .spawn username vx avatar_url => spawn_ball config vx username avatar_url g
  | .scoreBall ball => handle_ball_scored config ball g
  | .command username kind parameter now =>
      let r := execute_command username kind parameter g.user_scores now g.screen_messages
      { g with user_scores := r.2.1, screen_messages := r.2.2 }
  | .doReset => reset g

/-- A whole event history applied in order. -/
def run (config : GameConfig) (g : GameState) (events : List GameEvent) : GameState :=
  events.foldl (step config) g

/-- The glow duration written into `peg.hit_timer` on a hit
(`peg.hit_timer = 0.5` in `GameState._handle_collisions`). -/
noncomputable def GLOW_DURATION : ℝ := 1 / 2

/-- One ball/peg interaction from `GameState._handle_collisions`: when the
overlap `ball.radius + peg.radius - dist` is positive, push the ball out
along the unit normal (`0` normal when `dist == 0`), reflect the velocity
about the normal, damp both velocity components, and set the peg's
`hit_timer` to the glow duration. -/
noncomputable def resolveCollision (damping : ℝ) (ball : Ball ℝ) (peg : Peg ℝ) :
    Ball ℝ × Peg ℝ :=
  let dx := ball.x - peg.x
  let dy := ball.y - peg.y
  let dist := Real.sqrt (dx ^ 2 + dy ^ 2)
  let overlap := ball.radius + peg.radius - dist
  if 0 < overlap then
    let nx := if dist = 0 then 0 else dx / dist
    let ny := if dist = 0 then 0 else dy / dist
    let x2 := ball.x + nx * overlap
    let y2 := ball.y + ny * overlap
    let dot := ball.vx * nx + ball.vy * ny
    let vx2 := (ball.vx - 2 * dot * nx) * damping
    let vy2 := (ball.vy - 2 * dot * ny) * damping
    ({ ball with x := x2, y := y2, vx := vx2, vy := vy2 },
     { peg with hit_timer := GLOW_DURATION })
  else
    (ball, peg)

/-- `GameState._handle_collisions`: the per-peg resolution applied to
every peg in insertion order; the in-place peg mutation is modelled by
returning the updated peg list in the same order. -/
noncomputable def handle_collisions (damping : ℝ) :
    Ball ℝ → List (Peg ℝ) → Ball ℝ × List (Peg ℝ)
  | ball, [] => (ball, [])
  | ball, peg :: rest =>
      let r := resolveCollision damping ball peg
      let r2 := handle_collisions damping r.1 rest
      (r2.1, r.2 :: r2.2)

/-- ASCII fragment of Python `str.lower` applied to one character
(uppercase `A`-`Z` shifted down by 32, everything else unchanged). -/
def lowerChar (c : Char) : Char :=
  if 'A' ≤ c ∧ c ≤ 'Z' then Char.ofNat (c.toNat + 32) else c

/-- `str.lower` over the character-list model of a Python string. -/
def toLowerL (s : List Char) : List Char :=
  s.map lowerChar

/-- `str.strip`: drop whitespace from both ends. -/
def trimL (s : List Char) : List Char :=
  (((s.dropWhile Char.isWhitespace).reverse.dropWhile Char.isWhitespace)).reverse

/-- The body of `CommandProcessor.parse_command` after the
`comment.strip().lower()` normalisation: `re.match(r'^msg\s+(.+)$', c)`
followed by `group(1).strip()` and the 1..50 length check.  The regex on
the already-stripped `c` succeeds exactly when `c` starts with `msg`
followed by at least one whitespace character and the remainder after the
whitespace run is nonempty and contains no newline (`.` does not match
a newline and `$` anchors at the end); the captured group is that
remainder.  Unrecognised input falls through to the simple-command loop,
which skips `MSG` and so never matches. -/
def parseCore (c : List Char) : Option (CommandType × List Char) :=
  if c.take 3 = ['m', 's', 'g'] then
    let rest := c.drop 3
    let ws := rest.takeWhile Char.isWhitespace
    let r := rest.dropWhile Char.isWhitespace
    if ws ≠ [] ∧ r ≠ [] ∧ '\n' ∉ r then
      let message := trimL r
      if 0 < message.length ∧ message.length ≤ 50 then
        some (CommandType.MSG, message)
      else
        none
    else
      none
  else
    none

/-- `CommandProcessor.parse_command`: lowercase the stripped comment,
then match the `msg` command. -/
def parse_command (comment : List Char) : Option (CommandType × List Char) :=
  parseCore (toLowerL (trimL comment))

/-- The Euclidean center distance `math.hypot(dx, dy)` used by
`GameState._handle_collisions`. -/
noncomputable def centerDist (ball : Ball ℝ) (peg : Peg ℝ) : ℝ :=
  Real.sqrt ((ball.x - peg.x) ^ 2 + (ball.y - peg.y) ^ 2)

/-- The slot-scoring rule in the words of the specification: slot index
`floor((ball.x - slot_width) / slot_width)` clamped into
`[0, slot_count - 1]`, points `slot_scores[slot_index]` or the last list
element if the index exceeds the list length. -/
def specSlotPoints (config : GameConfig) (x : ℚ) : ℤ :=
  let max_pegs_in_row : ℤ := (config.top_pegs : ℤ) + (config.rows : ℤ) - 1
  let slot_count : ℤ := max_pegs_in_row - 1
  let slot_width : ℚ := config.width / ((max_pegs_in_row : ℚ) + 1)
  let raw : ℤ := Int.floor ((x - slot_width) / slot_width)
  let idx : ℤ := if raw < 0 then 0 else if slot_count - 1 < raw then slot_count - 1 else raw
  if (config.slot_scores.length : ℤ) ≤ idx then
    config.slot_scores.getLastD 0
  else
    config.slot_scores.getD idx.toNat 0

/-! ### Character-level helper lemmas for the command parser -/

theorem eq_char_iff_toNat (c d : Char) : c = d ↔ c.toNat = d.toNat :=
  ⟨fun h => h ▸ rfl, fun h => by
    have h2 := congrArg Char.ofNat h
    rwa [Char.ofNat_toNat, Char.ofNat_toNat] at h2⟩

theorem lowerChar_toNat (c : Char) (h1 : 65 ≤ c.toNat) (h2 : c.toNat ≤ 90) :
    (lowerChar c).toNat = c.toNat + 32 := by
  have hA : 'A' ≤ c := h1
  have hZ : c ≤ 'Z' := h2
  rw [lowerChar, if_pos ⟨hA, hZ⟩]
  have hv : (c.toNat + 32).isValidChar := by
    left
    omega
  rw [Char.ofNat, dif_pos hv]
  rfl

theorem lowerChar_of_not (c : Char) (h : ¬(65 ≤ c.toNat ∧ c.toNat ≤ 90)) :
    lowerChar c = c := by
  rw [lowerChar, if_neg]
  exact h

theorem lowerChar_idem (c : Char) : lowerChar (lowerChar c) = lowerChar c := by
  by_cases h : 65 ≤ c.toNat ∧ c.toNat ≤ 90
  · have ht := lowerChar_toNat c h.1 h.2
    rw [lowerChar_of_not (lowerChar c) (by omega)]
  · rw [lowerChar_of_not c h]
    exact lowerChar_of_not c h

theorem isWhitespace_toNat (c : Char) :
    c.isWhitespace =
      decide (c.toNat = 32 ∨ c.toNat = 9 ∨ c.toNat = 13 ∨ c.toNat = 10) := by
  simp only [Char.isWhitespace]
  rcases h : decide (c.toNat = 32 ∨ c.toNat = 9 ∨ c.toNat = 13 ∨ c.toNat = 10) with _ | _
  · simp at h
    simp only [Bool.or_eq_false_iff]
    refine ⟨⟨⟨?_, ?_⟩, ?_⟩, ?_⟩ <;>
      · simp [eq_char_iff_toNat]
        omega
  · simp at h
    rcases h with h | h | h | h <;>
      · simp [eq_char_iff_toNat]
        omega

theorem isWhitespace_lowerChar (c : Char) :
    (lowerChar c).isWhitespace = c.isWhitespace := by
  by_cases h : 65 ≤ c.toNat ∧ c.toNat ≤ 90
  · have ht := lowerChar_toNat c h.1 h.2
    rw [isWhitespace_toNat, isWhitespace_toNat c, decide_eq_decide]
    omega
  · rw [lowerChar_of_not c h]

theorem toLowerL_idem (s : List Char) : toLowerL (toLowerL s) = toLowerL s := by
  rw [toLowerL, toLowerL, List.map_map]
  exact List.map_congr_left (fun a _ => lowerChar_idem a)

theorem trimL_toLowerL (s : List Char) : trimL (toLowerL s) = toLowerL (trimL s) := by
  have hws : (Char.isWhitespace ∘ lowerChar) = Char.isWhitespace :=
    funext isWhitespace_lowerChar
  rw [trimL, trimL, toLowerL, toLowerL, List.dropWhile_map, hws, ← List.map_reverse,
    List.dropWhile_map, hws, ← List.map_reverse]

theorem mem_of_mem_trimL (a : Char) (l : List Char) (h : a ∈ trimL l) : a ∈ l := by
  rw [trimL, List.mem_reverse] at h
  have h2 := (List.dropWhile_sublist _).mem h
  rw [List.mem_reverse] at h2
  exact (List.dropWhile_sublist _).mem h2

theorem mem_toLowerL_fixed (a : Char) (s : List Char) (h : a ∈ toLowerL s) :
    lowerChar a = a := by
  rw [toLowerL, List.mem_map] at h
  obtain ⟨b, _, rfl⟩ := h
  exact lowerChar_idem b

theorem parseCore_mem (c : List Char) (k : CommandType) (p : List Char)
    (h : parseCore c = some (k, p)) : ∀ a ∈ p, a ∈ c := by
  intro a ha
  rw [parseCore] at h
  simp only [] at h
  split_ifs at h with h1 h2 h3
  · injection h with h4
    injection h4 with h5 h6
    subst h6
    have h7 := mem_of_mem_trimL a _ ha
    have h8 := (List.dropWhile_sublist _).mem h7
    exact List.drop_subset 3 c h8

/-- C10: every parameter returned by `parse_command` comes from the
comment after it has been stripped and fully lowercased, so the parameter
(and hence the text of the ScreenMessage later queued for it) contains no
uppercase ASCII letters: lowercasing the whole comment first does not
change the parse result, and the returned parameter is a fixed point of
lowercasing. -/
theorem parse_command_lowercased (comment : List Char) :
    parse_command (toLowerL comment) = parse_command comment ∧
    ∀ k p, parse_command comment = some (k, p) → toLowerL p = p := by
  constructor
  · rw [parse_command, parse_command, trimL_toLowerL, toLowerL_idem]
  · intro k p h
    rw [parse_command] at h
    have hmem := parseCore_mem _ _ _ h
    have hfix : ∀ a ∈ p, lowerChar a = a := fun a ha =>
      mem_toLowerL_fixed a _ (hmem a ha)
    calc toLowerL p = p.map id := List.map_congr_left (fun a ha => hfix a ha)
    _ = p := List.map_id p

/-- Witness for C10 at the concrete comment `"MSG Hi"`. -/
theorem parse_command_lowercased_witness :
    parse_command (toLowerL ("MSG Hi".toList)) = parse_command ("MSG Hi".toList) ∧
    toLowerL ['h', 'i'] = ['h', 'i'] :=
  ⟨(parse_command_lowercased ("MSG Hi".toList)).1,
   (parse_command_lowercased ("MSG Hi".toList)).2 CommandType.MSG ['h', 'i'] (by decide)⟩

/-- C9: constructing a game configuration with
`len(slot_scores) != slot_count` aborts with a `ValueError` (modelled as
`Except.error`), and construction succeeds, preserving every field, when
the lengths match. -/
theorem mkGameConfig_length_check (width height pr br grav damp : ℚ)
    (rows tp : ℕ) (bm tm : ℚ) (cols sc : ℕ) (ss : List ℤ) :
    (ss.length ≠ sc →
      mkGameConfig width height pr br grav damp rows tp bm tm cols sc ss =
        .error ("slot_scores length must match slot_count")) ∧
    (ss.length = sc →
      mkGameConfig width height pr br grav damp rows tp bm tm cols sc ss =
        .ok { width := width, height := height, peg_radius := pr, ball_radius := br,
              gravity := grav, damping := damp, rows := rows, top_pegs := tp,
              bottom_margin := bm, top_margin := tm, cols := cols, slot_count := sc,
              slot_scores := ss }) := by
  constructor <;> intro h <;> simp [mkGameConfig, h]

/-- Witness for C9: a 2-element score list is rejected for
`slot_count = 3` and accepted for `slot_count = 2`. -/
theorem mkGameConfig_length_check_witness :
    (([1, 2] : List ℤ).length ≠ 3 ∧
      mkGameConfig 1 1 1 1 1 1 1 1 1 1 1 3 [1, 2] =
        .error ("slot_scores length must match slot_count")) ∧
    (([1, 2] : List ℤ).length = 2 ∧
      mkGameConfig 1 1 1 1 1 1 1 1 1 1 1 2 [1, 2] =
        .ok { width := 1, height := 1, peg_radius := 1, ball_radius := 1,
              gravity := 1, damping := 1, rows := 1, top_pegs := 1,
              bottom_margin := 1, top_margin := 1, cols := 1, slot_count := 2,
              slot_scores := [1, 2] }) :=
  ⟨⟨by decide, (mkGameConfig_length_check 1 1 1 1 1 1 1 1 1 1 1 3 [1, 2]).1 (by decide)⟩,
   ⟨rfl, (mkGameConfig_length_check 1 1 1 1 1 1 1 1 1 1 1 2 [1, 2]).2 rfl⟩⟩

/-- C2: `execute_command` returns `false` and leaves the ledger and the
screen-message queue unchanged exactly when the user is unknown or their
score is below the command's cost; otherwise it debits exactly the cost
from that user's entry, appends exactly one `ScreenMessage` with display
duration 6 seconds, and returns `true`.  The `msg` cost is 50, and the
boolean is the sole failure mode (the embedded operation is total). -/
theorem execute_command_spec (username : String) (kind : CommandType)
    (parameter : List Char) (scores : List UserScore) (now : ℚ)
    (msgs : List ScreenMessage) :
    commandCost CommandType.MSG = 50 ∧
    (can_afford_command username kind scores = true ↔
      ∃ u, lookupUser username scores = some u ∧ commandCost kind ≤ u.score) ∧
    (can_afford_command username kind scores = false →
      execute_command username kind parameter scores now msgs = (false, scores, msgs)) ∧
    (can_afford_command username kind scores = true →
      execute_command username kind parameter scores now msgs =
        (true,
         scores.map (fun u =>
           if u.username = username then { u with score := u.score - commandCost kind } else u),
         msgs ++ [{ username := username, message := parameter, timestamp := now,
                    duration := 6, x := 0, y := 0, alpha := 255 }])) := by
  refine ⟨rfl, ?_, ?_, ?_⟩
  · rw [can_afford_command]
    cases h : lookupUser username scores with
    | none => simp
    | some u => simp
  · intro h
    rw [execute_command]
    simp [h]
  · intro h
    cases kind
    rw [execute_command]
    simp [h, execute_msg_command]

/-- Witness for C2: the spec's 49/50 example — a user at score 49 cannot
afford `msg` (cost 50) and nothing changes; at score 50 the command
succeeds, the score becomes 0, and exactly one message is queued. -/
theorem execute_command_spec_witness :
    (can_afford_command "a" CommandType.MSG
        [{ username := "a", score := 49, avatar_url := none }] = false ∧
      execute_command "a" CommandType.MSG ['h', 'i']
          [{ username := "a", score := 49, avatar_url := none }] 0 [] =
        (false, [{ username := "a", score := 49, avatar_url := none }], [])) ∧
    (can_afford_command "a" CommandType.MSG
        [{ username := "a", score := 50, avatar_url := none }] = true ∧
      execute_command "a" CommandType.MSG ['h', 'i']
          [{ username := "a", score := 50, avatar_url := none }] 0 [] =
        (true, [{ username := "a", score := 0, avatar_url := none }],
         [{ username := "a", message := ['h', 'i'], timestamp := 0,
            duration := 6, x := 0, y := 0, alpha := 255 }])) := by
  constructor
  · refine ⟨by decide, ?_⟩
    exact (execute_command_spec "a" CommandType.MSG ['h', 'i']
      [{ username := "a", score := 49, avatar_url := none }] 0 []).2.2.1 (by decide)
  · refine ⟨by decide, ?_⟩
    have h := (execute_command_spec "a" CommandType.MSG ['h', 'i']
      [{ username := "a", score := 50, avatar_url := none }] 0 []).2.2.2 (by decide)
    rw [h]
    decide

/-- C5: each call of the command processor's `update(dt)` removes from
the screen-message list exactly those messages whose elapsed time since
creation has reached their duration (the kept multiplicity is stated via
`count`) and keeps all the others in order (`Sublist`), for every `dt`
and every prior queue content. -/
theorem processorUpdate_prunes (now dt : ℚ) (msgs : List ScreenMessage)
    (m : ScreenMessage) :
    (processorUpdate now dt msgs).count m =
      (if now - m.timestamp < m.duration then msgs.count m else 0) ∧
    (processorUpdate now dt msgs).Sublist msgs := by
  constructor
  · rw [processorUpdate]
    split_ifs with h
    · exact List.count_filter (by simpa using h)
    · rw [List.count_eq_zero]
      intro hmem
      rw [List.mem_filter] at hmem
      exact h (by simpa using hmem.2)
  · exact List.filter_sublist _

/-- C8: `reset()` empties the ball list and the notification queue, zeroes
every registered user's score while keeping all identities in order, and
leaves the peg list (positions, radii, hit timers, and hence its length)
unchanged. -/
theorem reset_spec (g : GameState) :
    (reset g).balls = [] ∧
    (reset g).user_scores = g.user_scores.map (fun u => { u with score := 0 }) ∧
    (reset g).user_scores.map UserScore.username =
      g.user_scores.map UserScore.username ∧
    (reset g).sound_events = [] ∧
    (reset g).pegs = g.pegs ∧
    (reset g).pegs.length = g.pegs.length := by
  refine ⟨rfl, rfl, ?_, rfl, rfl, rfl⟩
  rw [reset]
  rw [List.map_map]
  exact List.map_congr_left (fun a _ => rfl)

/-- The clamped-index bookkeeping shared by `computePoints` (the code's
`max/min` clamp and `ℕ` length test) and `specSlotPoints` (the spec's
if-chain clamp and `ℤ` length test) produces identical points. -/
theorem slotPoints_clamp (ss : List ℤ) (raw k : ℤ) :
    (if ss.length ≤ (max 0 (min raw k)).toNat then ss.getLastD 0
     else ss.getD (max 0 (min raw k)).toNat 0) =
    (if (ss.length : ℤ) ≤ (if raw < 0 then 0 else if k < raw then k else raw) then
       ss.getLastD 0
     else
       ss.getD (if raw < 0 then 0 else if k < raw then k else raw).toNat 0) := by
  have hij : max 0 (min raw k) =
      max 0 (if raw < 0 then 0 else if k < raw then k else raw) := by
    split_ifs <;> omega
  generalize hgen : (if raw < 0 then (0:ℤ) else if k < raw then k else raw) = j at hij ⊢
  rw [hij]
  rcases le_or_lt 0 j with hj | hj
  · have hmax : max 0 j = j := by omega
    rw [hmax]
    by_cases hL : ss.length ≤ j.toNat
    · rw [if_pos hL, if_pos (by omega)]
    · rw [if_neg hL, if_neg (by omega)]
  · have hmax : max 0 j = 0 := by omega
    have hjt : j.toNat = 0 := by omega
    rw [hmax, hjt, if_neg (by omega : ¬((ss.length : ℤ) ≤ j))]
    by_cases hL : ss.length = 0
    · rw [if_pos (by omega)]
      rw [List.length_eq_zero] at hL
      rw [hL]
      rfl
    · rw [if_neg (by omega)]
      rfl

/-- C3: the points awarded to a scored ball follow the specification's
slot rule — index `floor((ball.x - slot_width) / slot_width)` clamped
into `[0, slot_count - 1]` with `slot_width = width / (max_pegs_in_row + 1)`
and `slot_count = max_pegs_in_row - 1`, points `slot_scores[slot_index]`
with last-element fallback — and on the default symmetric board a ball at
`x = width / 2 = 300` scores the middle slot's value, 5. -/
theorem slot_scoring_matches_spec :
    (∀ config x, computePoints config x = specSlotPoints config x) ∧
    computePoints defaultConfig 300 = 5 := by
  constructor
  · intro config x
    rw [computePoints, specSlotPoints, computeSlotIndex]
    exact slotPoints_clamp config.slot_scores _ _
  · norm_num [computePoints, computeSlotIndex, defaultConfig]
    decide

/-- C1 (amended): when a scored ball's owner already has a `UserScore`
entry, `_handle_ball_scored` credits exactly the computed slot points to
that entry; when no entry exists for the owner, the ledger is left
completely unchanged — no record is created and the points are
discarded.  (Spawn registers users, so in practice every scored ball's
owner is already in the ledger.) -/
theorem scored_ball_credit (config : GameConfig) (ball : Ball ℚ) (g : GameState) :
    (lookupUser ball.username g.user_scores = none →
      (handle_ball_scored config ball g).user_scores = g.user_scores) ∧
    (∀ u, lookupUser ball.username g.user_scores = some u →
      lookupUser ball.username (handle_ball_scored config ball g).user_scores =
        some { u with score := u.score + computePoints config ball.x }) := by
  constructor
  · intro h
    simp [handle_ball_scored, h]
  · intro u hu
    have hname : u.username = ball.username := by
      have h2 := List.find?_some hu
      simpa using h2
    simp only [handle_ball_scored, hu, Option.isSome_some, if_true]
    rw [lookupUser, List.find?_map]
    have hpf : ((fun v : UserScore => decide (v.username = ball.username)) ∘
        (fun v : UserScore =>
          if v.username = ball.username then
            { v with score := v.score + computePoints config ball.x }
          else v)) =
        (fun v : UserScore => decide (v.username = ball.username)) := by
      funext v
      by_cases hv : v.username = ball.username <;> simp [hv]
    rw [hpf]
    rw [lookupUser] at hu
    rw [hu]
    simp [hname]

/-- Witness for C1 at a registered user: `"alice"` at score 7 scores a
centered ball worth 5 points and ends at 12. -/
theorem scored_ball_credit_witness :
    lookupUser "alice" [{ username := "alice", score := 7, avatar_url := none }] =
      some { username := "alice", score := 7, avatar_url := none } ∧
    lookupUser "alice" (handle_ball_scored defaultConfig
        { x := 300, y := 790, vx := 0, vy := 0, radius := 20, username := "alice",
          active := true, rotation := 0 }
        { balls := [], pegs := [],
          user_scores := [{ username := "alice", score := 7, avatar_url := none }],
          sound_events := [], screen_messages := [] }).user_scores =
      some { username := "alice", score := 12, avatar_url := none } := by
  have hp : computePoints defaultConfig 300 = 5 := by
    norm_num [computePoints, computeSlotIndex, defaultConfig]
    decide
  have h := (scored_ball_credit defaultConfig
      { x := 300, y := 790, vx := 0, vy := 0, radius := 20, username := "alice",
        active := true, rotation := 0 }
      { balls := [], pegs := [],
        user_scores := [{ username := "alice", score := 7, avatar_url := none }],
        sound_events := [], screen_messages := [] }).2
      { username := "alice", score := 7, avatar_url := none } (by decide)
  norm_num [hp] at h
  exact ⟨by decide, h⟩

/-- Counterexample for C1 as stated: scoring a ball owned by `"bob"`, who
has no `UserScore` entry, leaves the ledger unchanged and creates no
entry — the claimed record creation on a first scoring event does not
happen, and no score increases. -/
theorem scored_ball_no_creation_counterexample :
    (handle_ball_scored defaultConfig
        { x := 300, y := 790, vx := 0, vy := 0, radius := 20, username := "bob",
          active := true, rotation := 0 }
        { balls := [], pegs := [],
          user_scores := [{ username := "alice", score := 7, avatar_url := none }],
          sound_events := [], screen_messages := [] }).user_scores =
      [{ username := "alice", score := 7, avatar_url := none }] ∧
    lookupUser "bob" (handle_ball_scored defaultConfig
        { x := 300, y := 790, vx := 0, vy := 0, radius := 20, username := "bob",
          active := true, rotation := 0 }
        { balls := [], pegs := [],
          user_scores := [{ username := "alice", score := 7, avatar_url := none }],
          sound_events := [], screen_messages := [] }).user_scores = none := by
  constructor <;> decide

theorem getLastD_mem (l : List ℤ) (d : ℤ) (h : l ≠ []) : l.getLastD d ∈ l := by
  induction l generalizing d with
  | nil => exact absurd rfl h
  | cons a t ih =>
    cases t with
    | nil => simp [List.getLastD]
    | cons b t2 =>
      rw [List.getLastD_cons]
      exact List.mem_cons_of_mem a (ih a (by simp))

theorem computePoints_nonneg (config : GameConfig) (x : ℚ)
    (hss : ∀ s ∈ config.slot_scores, 0 ≤ s) : 0 ≤ computePoints config x := by
  rw [computePoints]
  split_ifs with h
  · by_cases hnil : config.slot_scores = []
    · rw [hnil]
      rfl
    · exact hss _ (getLastD_mem _ 0 hnil)
  · have hlt : (computeSlotIndex config x).toNat < config.slot_scores.length := by
      omega
    rw [List.getD_eq_getElem _ _ hlt]
    exact hss _ (List.getElem_mem hlt)

theorem lookupUser_mem_nodup (name : String) (l : List UserScore) (u : UserScore)
    (hnd : (l.map UserScore.username).Nodup) (hu : u ∈ l)
    (hname : u.username = name) : lookupUser name l = some u := by
  induction l with
  | nil => cases hu
  | cons v t ih =>
    rw [List.map_cons, List.nodup_cons] at hnd
    rcases List.mem_cons.mp hu with rfl | hu2
    · rw [lookupUser, List.find?_cons]
      simp [hname]
    · have hvne : ¬(v.username = name) := by
        intro he
        exact hnd.1 (he ▸ hname ▸ List.mem_map_of_mem UserScore.username hu2)
      rw [lookupUser, List.find?_cons]
      simp only [decide_eq_false hvne]
      exact ih hnd.2 hu2

theorem step_preserves_inv (config : GameConfig)
    (hss : ∀ s ∈ config.slot_scores, 0 ≤ s) (g : GameState) (e : GameEvent)
    (hnd : (g.user_scores.map UserScore.username).Nodup)
    (hpos : ∀ u ∈ g.user_scores, 0 ≤ u.score) :
    ((step config g e).user_scores.map UserScore.username).Nodup ∧
    ∀ u ∈ (step config g e).user_scores, 0 ≤ u.score := by
  cases e with
  | spawn name vx av =>
    rw [step, spawn_ball]
    by_cases h : (lookupUser name g.user_scores).isSome
    · simp only [h, if_true]
      exact ⟨hnd, hpos⟩
    · simp only [h, if_false, Bool.false_eq_true]
      constructor
      · rw [List.map_append, List.nodup_append]
        refine ⟨hnd, by simp, ?_⟩
        intro a ha hb
        simp only [List.map_cons, List.map_nil, List.mem_cons,
          List.not_mem_nil, or_false] at hb
        subst hb
        rw [List.mem_map] at ha
        obtain ⟨v, hv, hveq⟩ := ha
        rw [Option.not_isSome_iff_eq_none, lookupUser, List.find?_eq_none] at h
        exact h v hv (by simp [hveq])
      · rw [List.forall_mem_append]
        exact ⟨hpos, by simp⟩
  | scoreBall b =>
    rw [step, handle_ball_scored]
    split_ifs with h
    · constructor
      · rw [List.map_map]
        have heq : (UserScore.username ∘ fun u : UserScore =>
            if u.username = b.username then
              { u with score := u.score + computePoints config b.x }
            else u) = UserScore.username := by
          funext v
          by_cases hv : v.username = b.username <;> simp [hv]
        rw [heq]
        exact hnd
      · intro u hu
        rw [List.mem_map] at hu
        obtain ⟨v, hv, rfl⟩ := hu
        have hpts := computePoints_nonneg config b.x hss
        have hvs := hpos v hv
        by_cases hvn : v.username = b.username <;> simp [hvn] <;> omega
    · exact ⟨hnd, hpos⟩
  | command name kind param now =>
    rw [step]
    simp only []
    rw [execute_command]
    by_cases h : can_afford_command name kind g.user_scores
    · rw [if_pos h]
      cases kind
      simp only []
      constructor
      · rw [List.map_map]
        have heq : (UserScore.username ∘ fun u : UserScore =>
            if u.username = name then
              { u with score := u.score - commandCost CommandType.MSG }
            else u) = UserScore.username := by
          funext v
          by_cases hv : v.username = name <;> simp [hv]
        rw [heq]
        exact hnd
      · intro u hu
        rw [List.mem_map] at hu
        obtain ⟨v, hv, rfl⟩ := hu
        by_cases hvn : v.username = name
        · have hl := lookupUser_mem_nodup name g.user_scores v hnd hv hvn
          rw [can_afford_command, hl] at h
          simp only [decide_eq_true_eq] at h
          simp only [hvn, if_true]
          omega
        · simp only [hvn, if_false]
          exact hpos v hv
    · rw [if_neg h]
      exact ⟨hnd, hpos⟩
  | doReset =>
    rw [step, reset]
    constructor
    · rw [List.map_map]
      exact hnd
    · intro u hu
      rw [List.mem_map] at hu
      obtain ⟨v, _, rfl⟩ := hu
      simp

/-- C7: along every event history built from the coordinator's
ledger-mutating operations (spawn registration, slot scoring, command
execution, reset), starting from the empty ledger, under a configuration
whose slot scores are non-negative, every registered user's score stays
non-negative: the affordability check performed before each debit
prevents any score from going negative. -/
theorem ledger_scores_nonneg (config : GameConfig)
    (hss : ∀ s ∈ config.slot_scores, 0 ≤ s) (events : List GameEvent) :
    ∀ u ∈ (run config (initialState config) events).user_scores, 0 ≤ u.score := by
  suffices h : ∀ g : GameState, (g.user_scores.map UserScore.username).Nodup →
      (∀ u ∈ g.user_scores, 0 ≤ u.score) →
      ((run config g events).user_scores.map UserScore.username).Nodup ∧
      ∀ u ∈ (run config g events).user_scores, 0 ≤ u.score by
    exact (h (initialState config) (by simp [initialState]) (by simp [initialState])).2
  induction events with
  | nil =>
    intro g h1 h2
    exact ⟨h1, h2⟩
  | cons e t ih =>
    intro g h1 h2
    have hstep := step_preserves_inv config hss g e h1 h2
    simp only [run, List.foldl_cons]
    exact ih (step config g e) hstep.1 hstep.2

/-- Witness for C7: the default configuration has non-negative slot
scores, and after spawning `"alice"` her concrete ledger entry has a
non-negative score. -/
theorem ledger_scores_nonneg_witness :
    (∀ s ∈ defaultConfig.slot_scores, 0 ≤ s) ∧
    0 ≤ ({ username := "alice", score := 0, avatar_url := none } : UserScore).score :=
  ⟨by decide,
   ledger_scores_nonneg defaultConfig (by decide) [GameEvent.spawn "alice" 0 none]
     { username := "alice", score := 0, avatar_url := none } (by decide)⟩

/-- C4: for a peg overlapping the ball (`ball.radius + peg.radius - d > 0`)
with distinct centers, one resolution step applies, in sequence, the
push-out along the unit normal by the overlap, the specular velocity
reflection about that normal, the damping of both velocity components,
and sets the peg's `hit_timer` to the glow duration; afterwards the
distance between the ball's and the peg's centers is at least
`ball.radius + peg.radius`.  (`handle_collisions` applies this step to
every peg in Board-Builder insertion order.) -/
theorem collision_resolution_correct (damping : ℝ) (ball : Ball ℝ) (peg : Peg ℝ)
    (hd : 0 < centerDist ball peg)
    (hov : centerDist ball peg < ball.radius + peg.radius) :
    (resolveCollision damping ball peg).1.x =
      ball.x + (ball.x - peg.x) / centerDist ball peg *
        (ball.radius + peg.radius - centerDist ball peg) ∧
    (resolveCollision damping ball peg).1.y =
      ball.y + (ball.y - peg.y) / centerDist ball peg *
        (ball.radius + peg.radius - centerDist ball peg) ∧
    (resolveCollision damping ball peg).1.vx =
      (ball.vx - 2 * (ball.vx * ((ball.x - peg.x) / centerDist ball peg) +
        ball.vy * ((ball.y - peg.y) / centerDist ball peg)) *
        ((ball.x - peg.x) / centerDist ball peg)) * damping ∧
    (resolveCollision damping ball peg).1.vy =
      (ball.vy - 2 * (ball.vx * ((ball.x - peg.x) / centerDist ball peg) +
        ball.vy * ((ball.y - peg.y) / centerDist ball peg)) *
        ((ball.y - peg.y) / centerDist ball peg)) * damping ∧
    (resolveCollision damping ball peg).2.hit_timer = GLOW_DURATION ∧
    ball.radius + peg.radius ≤ centerDist (resolveCollision damping ball peg).1 peg ∧
    ∀ rest : List (Peg ℝ), handle_collisions damping ball (peg :: rest) =
      ((handle_collisions damping (resolveCollision damping ball peg).1 rest).1,
       (resolveCollision damping ball peg).2 ::
         (handle_collisions damping (resolveCollision damping ball peg).1 rest).2) := by
  have hne : ¬(centerDist ball peg = 0) := ne_of_gt hd
  have hres : resolveCollision damping ball peg =
      ({ ball with
          x := ball.x + (ball.x - peg.x) / centerDist ball peg *
            (ball.radius + peg.radius - centerDist ball peg),
          y := ball.y + (ball.y - peg.y) / centerDist ball peg *
            (ball.radius + peg.radius - centerDist ball peg),
          vx := (ball.vx - 2 * (ball.vx * ((ball.x - peg.x) / centerDist ball peg) +
            ball.vy * ((ball.y - peg.y) / centerDist ball peg)) *
            ((ball.x - peg.x) / centerDist ball peg)) * damping,
          vy := (ball.vy - 2 * (ball.vx * ((ball.x - peg.x) / centerDist ball peg) +
            ball.vy * ((ball.y - peg.y) / centerDist ball peg)) *
            ((ball.y - peg.y) / centerDist ball peg)) * damping },
       { peg with hit_timer := GLOW_DURATION }) := by
    rw [resolveCollision]
    simp only []
    rw [← centerDist]
    rw [if_pos (by linarith : 0 < ball.radius + peg.radius - centerDist ball peg)]
    simp only [if_neg hne]
  refine ⟨by rw [hres], by rw [hres], by rw [hres], by rw [hres], by rw [hres],
    ?_, fun rest => rfl⟩
  rw [hres]
  rw [centerDist]
  simp only []
  have hsq : centerDist ball peg ^ 2 = (ball.x - peg.x) ^ 2 + (ball.y - peg.y) ^ 2 := by
    rw [centerDist]
    exact Real.sq_sqrt (by positivity)
  have hR : (0:ℝ) < ball.radius + peg.radius := lt_trans hd hov
  have hx : ball.x + (ball.x - peg.x) / centerDist ball peg *
      (ball.radius + peg.radius - centerDist ball peg) - peg.x =
      (ball.x - peg.x) * (ball.radius + peg.radius) / centerDist ball peg := by
    field_simp
    ring
  have hy : ball.y + (ball.y - peg.y) / centerDist ball peg *
      (ball.radius + peg.radius - centerDist ball peg) - peg.y =
      (ball.y - peg.y) * (ball.radius + peg.radius) / centerDist ball peg := by
    field_simp
    ring
  rw [hx, hy]
  have harg : ((ball.x - peg.x) * (ball.radius + peg.radius) / centerDist ball peg) ^ 2 +
      ((ball.y - peg.y) * (ball.radius + peg.radius) / centerDist ball peg) ^ 2 =
      (ball.radius + peg.radius) ^ 2 := by
    rw [div_pow, div_pow, div_add_div_same]
    rw [show ((ball.x - peg.x) * (ball.radius + peg.radius)) ^ 2 +
        ((ball.y - peg.y) * (ball.radius + peg.radius)) ^ 2 =
        ((ball.x - peg.x) ^ 2 + (ball.y - peg.y) ^ 2) *
          (ball.radius + peg.radius) ^ 2 from by ring]
    rw [← hsq, mul_comm, mul_div_assoc, div_self (pow_ne_zero 2 hne), mul_one]
  rw [harg, Real.sqrt_sq (le_of_lt hR)]

/-- Witness for C4: a ball of radius 6 at `(3, 4)` overlapping a peg of
radius 4 at the origin (center distance 5 < 10); the resolved peg's
`hit_timer` equals the glow duration. -/
theorem collision_resolution_correct_witness :
    0 < centerDist
        { x := 3, y := 4, vx := 0, vy := 10, radius := 6, username := "u",
          active := true, rotation := 0 }
        { x := 0, y := 0, radius := 4, hit_timer := 0 } ∧
    centerDist
        { x := 3, y := 4, vx := 0, vy := 10, radius := 6, username := "u",
          active := true, rotation := 0 }
        { x := 0, y := 0, radius := 4, hit_timer := 0 } < 10 ∧
    (resolveCollision (1/2)
        { x := 3, y := 4, vx := 0, vy := 10, radius := 6, username := "u",
          active := true, rotation := 0 }
        { x := 0, y := 0, radius := 4, hit_timer := 0 }).2.hit_timer =
      GLOW_DURATION := by
  have h5 : centerDist
      { x := 3, y := 4, vx := 0, vy := 10, radius := 6, username := "u",
        active := true, rotation := 0 }
      { x := 0, y := 0, radius := 4, hit_timer := 0 } = 5 := by
    rw [centerDist]
    norm_num
    rw [show (25:ℝ) = 5 ^ 2 by norm_num]
    exact Real.sqrt_sq (by norm_num)
  refine ⟨by rw [h5]; norm_num, by rw [h5]; norm_num, ?_⟩
  exact (collision_resolution_correct (1/2)
    { x := 3, y := 4, vx := 0, vy := 10, radius := 6, username := "u",
      active := true, rotation := 0 }
    { x := 0, y := 0, radius := 4, hit_timer := 0 }
    (by rw [h5]; norm_num) (by rw [h5]; norm_num)).2.2.2.2.1

/-- C6: collision resolution is total (the division by the center
distance is guarded), and in the degenerate case of exactly coincident
centers the normal is the zero vector, so the ball keeps its position
(zero displacement), receives zero velocity reflection (only the damping
factor is applied, as in the source), and the simulation continues with
the peg's glow timer set. -/
theorem degenerate_collision_safe (damping : ℝ) (ball : Ball ℝ) (peg : Peg ℝ)
    (hx : ball.x = peg.x) (hy : ball.y = peg.y)
    (hr : 0 < ball.radius + peg.radius) :
    (resolveCollision damping ball peg).1.x = ball.x ∧
    (resolveCollision damping ball peg).1.y = ball.y ∧
    (resolveCollision damping ball peg).1.vx = ball.vx * damping ∧
    (resolveCollision damping ball peg).1.vy = ball.vy * damping ∧
    (resolveCollision damping ball peg).2.hit_timer = GLOW_DURATION := by
  have hzero : Real.sqrt ((ball.x - peg.x) ^ 2 + (ball.y - peg.y) ^ 2) = 0 := by
    rw [hx, hy]
    simp
  rw [resolveCollision]
  simp only []
  rw [hzero]
  rw [if_pos (by rw [sub_zero]; exact hr :
    (0:ℝ) < ball.radius + peg.radius - 0)]
  rw [if_pos (rfl : (0:ℝ) = 0), if_pos (rfl : (0:ℝ) = 0)]
  refine ⟨by ring, by ring, by ring, by ring, rfl⟩

/-- Witness for C6: a ball exactly centered on a peg (both at `(1, 2)`);
the resolved peg's `hit_timer` equals the glow duration. -/
theorem degenerate_collision_safe_witness :
    (1:ℝ) = 1 ∧ (2:ℝ) = 2 ∧ (0:ℝ) < 20 + 6 ∧
    (resolveCollision (1/2)
        { x := 1, y := 2, vx := 3, vy := 4, radius := 20, username := "u",
          active := true, rotation := 0 }
        { x := 1, y := 2, radius := 6, hit_timer := 0 }).2.hit_timer =
      GLOW_DURATION :=
  ⟨rfl, rfl, by norm_num,
   (degenerate_collision_safe (1/2)
     { x := 1, y := 2, vx := 3, vy := 4, radius := 20, username := "u",
       active := true, rotation := 0 }
     { x := 1, y := 2, radius := 6, hit_timer := 0 }
     rfl rfl (by norm_num)).2.2.2.2⟩

end Plinko
